import Mathlib

/-!
Shallow embedding of `src/app.py` (Bhasamitra vernacular AI agent, a
Streamlit chat front-end over Bedrock `converse` with one declared tool,
`government_scheme_info`).  Strings are modelled as `List Char` where
character-level reasoning is needed, with `String` wrappers matching the
Python function names.  Machine sizes are `Nat` (Python ints); the float
thresholds `4.5 * 1024 * 1024` and `3.75 * 1024 * 1024` are exactly
representable, so the comparisons coincide with the `Nat` comparisons
against 4718592 and 3932160.
-/

namespace App

/-- Python whitespace, as matched by `re`category `\s` (Unicode mode) and by
`str.strip()` / `str.isspace()`: ASCII whitespace, the field separators
U+001C–U+001F, NEL, NBSP and the Unicode space characters. -/
def pyIsSpace (c : Char) : Bool :=
  c = ' ' || c = '\t' || c = '\n' || c = '\r' || c = '\x0b' || c = '\x0c' ||
  (0x1c ≤ c.toNat && c.toNat ≤ 0x1f) || c.toNat = 0x85 || c.toNat = 0xa0 ||
  c.toNat = 0x1680 || (0x2000 ≤ c.toNat && c.toNat ≤ 0x200a) ||
  c.toNat = 0x2028 || c.toNat = 0x2029 || c.toNat = 0x202f ||
  c.toNat = 0x205f || c.toNat = 0x3000

/-- The character class `[A-Za-z0-9\s\-\(\)\[\]]` of
`re.sub(r"[^A-Za-z0-9\s\-\(\)\[\]]", "_", ...)` in `sanitize_filename`. -/
def allowedChar (c : Char) : Bool :=
  (0x41 ≤ c.toNat && c.toNat ≤ 0x5a) ||   -- A-Z
  (0x61 ≤ c.toNat && c.toNat ≤ 0x7a) ||   -- a-z
  (0x30 ≤ c.toNat && c.toNat ≤ 0x39) ||   -- 0-9
  pyIsSpace c || c = '-' || c = '(' || c = ')' || c = '[' || c = ']'

/-- `filename.rsplit('.', 1)[0]`: drop the last `'.'` and everything after
it; the whole string when it has no `'.'`.  `none` means "no dot". -/
def stripExtAux : List Char → Option (List Char)
  | [] => none
  | c :: cs =>
    match stripExtAux cs with
    | some t => some (c :: t)
    | none => if c = '.' then some [] else none

def stripExt (s : List Char) : List Char := (stripExtAux s).getD s

/-- `re.sub(r"[^A-Za-z0-9\s\-\(\)\[\]]", "_", s)`: every character outside
the allowed class becomes `'_'`. -/
def replaceBad (s : List Char) : List Char :=
  s.map (fun c => if allowedChar c then c else '_')

/-- `re.sub(r"\s+", " ", s)`: each maximal whitespace run becomes one
space.  The `Bool` argument records whether we are inside a run whose
single replacement space has already been emitted. -/
def collapseAux : Bool → List Char → List Char
  | _, [] => []
  | inRun, c :: cs =>
    if pyIsSpace c then
      (if inRun then [] else [' ']) ++ collapseAux true cs
    else
      c :: collapseAux false cs

def collapseWS (s : List Char) : List Char := collapseAux false s

/-- Trailing-whitespace removal, the right half of `str.strip()`. -/
def dropTrailingSpaces : List Char → List Char
  | [] => []
  | c :: cs =>
    let rest := dropTrailingSpaces cs
    if rest.isEmpty && pyIsSpace c then [] else c :: rest

/-- `str.strip()`. -/
def pyStrip (s : List Char) : List Char :=
  dropTrailingSpaces (s.dropWhile pyIsSpace)

/-- `sanitize_filename` (src/app.py:47-51) on character lists:
`rsplit('.',1)[0]`, then the character-class substitution, then whitespace
collapsing, then `strip()`. -/
def sanitizeList (s : List Char) : List Char :=
  pyStrip (collapseWS (replaceBad (stripExt s)))

/-- `sanitize_filename` (src/app.py:47-51). -/
def sanitize_filename (s : String) : String :=
  (sanitizeList s.toList).asString

/-- `s.split(sep)[-1]`: the component after the last occurrence of `sep`,
or the whole string when `sep` does not occur. -/
def lastSplit (sep : Char) (s : List Char) : List Char :=
  (s.reverse.takeWhile (fun c => c != sep)).reverse

/-- A Streamlit `UploadedFile` as the code uses it: `.name`, `.size`,
`.type` (images) and the bytes produced by `.seek(0); .read()`. -/
structure UploadedFile where
  name : String
  size : Nat
  mime : String
  bytes : List Nat
deriving DecidableEq

/-- Exceptions that abort a turn: `ValueError` from validation, and
`ClientError`/network failures raised by the reasoning backend. -/
inductive TurnError
  | validation (msg : String)
  | transport (msg : String)
deriving DecidableEq

/-- A `toolUse` entry of a backend message.  `input` is the `"query"`
field of the tool input object; `none` models the key being absent (so
`tool['input']['query']` raises `KeyError`). -/
structure ToolUseBlock where
  toolUseId : String
  name : String
  input : Option String
deriving DecidableEq

/-- The dict returned by `get_government_scheme_info`: either
`{"error": msg}` or `{"detail": result}`. -/
inductive SchemeResult
  | error (msg : String)
  | detail (s : String)
deriving DecidableEq

/-- Content of a toolResult block.  `jsonResult r` stands for
`[{"json": {"result": "Tool Result: " + json.dumps(r)}}]` (the dict kept
structured rather than serialised); `text s` stands for `[{"text": s}]`. -/
inductive ToolResultContent
  | jsonResult (r : SchemeResult)
  | text (s : String)
deriving DecidableEq

structure ToolResultBlock where
  toolUseId : String
  content : List ToolResultContent
  status : Option String
deriving DecidableEq

/-- One typed block of a backend-facing message. -/
inductive ContentBlock
  | text (s : String)
  | document (name : String) (format : String) (src : List Nat)
  | image (format : String) (src : List Nat)
  | toolUse (tu : ToolUseBlock)
  | toolResult (tr : ToolResultBlock)
deriving DecidableEq

structure Message where
  role : String
  content : List ContentBlock
deriving DecidableEq

/-- One entry of `st.session_state.chat_history`:
`{"role": ..., "text": ...}`. -/
structure ChatTurn where
  role : String
  text : String
deriving DecidableEq

/-- The value of `bedrock_client.converse(...)` that the code reads:
`response['output']['message']` and `response['stopReason']`. -/
structure BackendResponse where
  outputMessage : Message
  stopReason : String
deriving DecidableEq

/-- One `converse` invocation: the message list and whether the `system`
parameter was passed (`tool_config()` is identical on every call, so it is
not recorded). -/
structure ConverseCall where
  messages : List Message
  system : Option String
deriving DecidableEq

/-- `BEDROCK_AGENT_ID` / `BEDROCK_AGENT_ALIAS_ID` from the environment. -/
structure SchemeConfig where
  agentId : Option String
  agentAliasId : Option String

/-- Python truthiness of an optional string: `not x` is true for `None`
and for the empty string. -/
def truthy (o : Option String) : Bool :=
  match o with
  | none => false
  | some s => s != ""

/-- `get_government_scheme_info` (src/app.py:86-111).  `agent` models
`invoke_agent` plus the chunk loop: `.ok chunks` is the list of decoded
stream chunks, `.error` is any exception raised while invoking the agent
or decoding the stream (caught by the function's own `except`). -/
def get_government_scheme_info (cfg : SchemeConfig)
    (agent : String → Except String (List String)) (query : String) : SchemeResult :=
  if !truthy cfg.agentId || !truthy cfg.agentAliasId then
    .error "Bedrock agent configuration missing"
  else
    match agent query with
    | .error _ => .error "Failed to retrieve information due to internal error."
    | .ok chunks =>
      let result := String.join chunks
      if result = "" then .error "No relevant information found for your query."
      else .detail result

/-- The `try/except` around one tool execution (src/app.py:247-258).
With the query present, `get_government_scheme_info` returns normally
(it catches its own failures), so the success-shaped tool result with no
`status` field is built; with the query absent, `tool['input']['query']`
raises `KeyError` and the except branch builds a tool result with
`status='error'` and `"Tool Result: " + str(err)` as text. -/
def dispatch_tool (cfg : SchemeConfig) (agent : String → Except String (List String))
    (tu : ToolUseBlock) : ToolResultBlock :=
  match tu.input with
  | some q =>
    { toolUseId := tu.toolUseId
      content := [.jsonResult (get_government_scheme_info cfg agent q)]
      status := none }
  | none =>
    { toolUseId := tu.toolUseId
      content := [.text "Tool Result: KeyError: query"]
      status := some "error" }

/-- The tool-request loop (src/app.py:243-272) `return`s inside the loop
right after the follow-up `converse` call, so only the first `toolUse`
entry named `government_scheme_info` is ever acted on; entries with other
names are skipped. -/
def firstKnownToolUse : List ContentBlock → Option ToolUseBlock
  | [] => none
  | .toolUse tu :: rest =>
    if tu.name = "government_scheme_info" then some tu else firstKnownToolUse rest
  | _ :: rest => firstKnownToolUse rest

/-- Number of `toolUse` entries of the known name in a content list. -/
def countKnownToolUses (blocks : List ContentBlock) : Nat :=
  (blocks.filter (fun b => match b with
    | .toolUse tu => tu.name == "government_scheme_info"
    | _ => false)).length

/-- `4.5 * 1024 * 1024` — exact as a float, so `doc.size > 4.5*1024*1024`
on an integer size is the `Nat` comparison against this constant. -/
def docLimitBytes : Nat := 4718592

/-- `3.75 * 1024 * 1024`, likewise exact. -/
def imgLimitBytes : Nat := 3932160

def allowedDocFormats : List String := ["txt", "pdf", "docx", "csv", "json"]

/-- `doc.name.split('.')[-1].lower()` -/
def docFormat (name : String) : String :=
  ((lastSplit '.' name.toList).map Char.toLower).asString

/-- `img.type.split('/')[-1]` -/
def imgFormat (mime : String) : String := (lastSplit '/' mime.toList).asString

/-- Validation and encoding of one document (src/app.py:188-202): size
first, then format, then the block (error strings abbreviated). -/
def validate_document (doc : UploadedFile) : Except TurnError ContentBlock :=
  if doc.size > docLimitBytes then
    .error (.validation ("Document " ++ doc.name ++ " exceeds 4.5MB limit."))
  else
    let fmt := docFormat doc.name
    if fmt ∈ allowedDocFormats then
      .ok (.document (sanitize_filename doc.name) fmt doc.bytes)
    else
      .error (.validation ("Unsupported document format: " ++ fmt))

/-- Validation and encoding of one image (src/app.py:203-214): only the
size is checked; the format is taken from the declared MIME type, and the
sanitized name is computed but not placed in the block (as in the code). -/
def validate_image (img : UploadedFile) : Except TurnError ContentBlock :=
  if img.size > imgLimitBytes then
    .error (.validation ("Image " ++ img.name ++ " exceeds 3.75MB limit."))
  else
    .ok (.image (imgFormat img.mime) img.bytes)

/-- The content assembly of `generate_message` (src/app.py:187-214): the
text block, then `documents[:5]`, then `images[:20]`, failing at the first
attachment that violates a constraint. -/
def build_content_blocks (input_text : String) (documents images : List UploadedFile) :
    Except TurnError (List ContentBlock) := do
  let docBlocks ← (documents.take 5).mapM validate_document
  let imgBlocks ← (images.take 20).mapM validate_image
  return ContentBlock.text input_text :: (docBlocks ++ imgBlocks)

/-- `not input_text or not input_text.strip()` — equivalently, the
stripped prompt is empty. -/
def promptEmpty (s : String) : Bool := (pyStrip s.toList).isEmpty

/-- History projection (src/app.py:216-222): each stored turn (which by
construction carries a `text` field) becomes a text-only message. -/
def historyMessages (chat_history : List ChatTurn) : List Message :=
  chat_history.map (fun t => { role := t.role, content := [.text t.text] })

/-- src/app.py:260-263. -/
def tool_result_message (tr : ToolResultBlock) : Message :=
  { role := "user", content := [.toolResult tr] }

/-- Everything observable about one `generate_message` run: its result
(the returned message, or the exception that escaped), the `converse`
calls made, and the tool invocations actually dispatched. -/
structure TurnOutcome where
  result : Except TurnError Message
  backendCalls : List ConverseCall
  dispatched : List ToolUseBlock

structure GenEnv where
  cfg : SchemeConfig
  agent : String → Except String (List String)
  systemPrompt : String

/-- `generate_message` (src/app.py:179-274).  `client call` models
`bedrock_client.converse(...)`; `.error` is the call raising.  The first
call carries the system prompt, the follow-up call does not.  When the
stop reason is `tool_use`, the loop dispatches the first known-name
`toolUse` entry and returns the follow-up response's output message
unconditionally; if no known-name entry exists the loop falls through and
the first output message is returned. -/
def generate_message (env : GenEnv)
    (client : ConverseCall → Except String BackendResponse)
    (input_text : String) (documents images : List UploadedFile)
    (chat_history : List ChatTurn) : TurnOutcome :=
  if promptEmpty input_text then
    { result := .error (.validation "Input text cannot be empty")
      backendCalls := [], dispatched := [] }
  else
    match build_content_blocks input_text documents images with
    | .error e => { result := .error e, backendCalls := [], dispatched := [] }
    | .ok blocks =>
      let messages := historyMessages chat_history ++ [{ role := "user", content := blocks }]
      let call1 : ConverseCall := { messages := messages, system := some env.systemPrompt }
      match client call1 with
      | .error e =>
        { result := .error (.transport e), backendCalls := [call1], dispatched := [] }
      | .ok r1 =>
        let messages2 := messages ++ [r1.outputMessage]
        if r1.stopReason = "tool_use" then
          match firstKnownToolUse r1.outputMessage.content with
          | some tu =>
            let tr := dispatch_tool env.cfg env.agent tu
            let messages3 := messages2 ++ [tool_result_message tr]
            let call2 : ConverseCall := { messages := messages3, system := none }
            match client call2 with
            | .error e =>
              { result := .error (.transport e), backendCalls := [call1, call2]
                dispatched := [tu] }
            | .ok r2 =>
              { result := .ok r2.outputMessage, backendCalls := [call1, call2]
                dispatched := [tu] }
          | none =>
            { result := .ok r1.outputMessage, backendCalls := [call1], dispatched := [] }
        else
          { result := .ok r1.outputMessage, backendCalls := [call1], dispatched := [] }

/-- src/app.py:34-36: `chat_history = chat_history[-50:]` once the length
exceeds 50. -/
def truncate_chat_history (h : List ChatTurn) : List ChatTurn :=
  if h.length > 50 then h.drop (h.length - 50) else h

/-- Substring test `"\\u" in text`, specialised to the two-character
needle backslash-`u`. -/
def hasBackslashU : List Char → Bool
  | c1 :: c2 :: rest => (c1 = '\\' && c2 = 'u') || hasBackslashU (c2 :: rest)
  | _ => false

/-- `decode_unicode_text` (src/app.py:77-84).  `esc` models the external
codec round-trip `bytes(text, "utf-8").decode("unicode_escape")`; `none`
models the codec raising, which the except branch turns into returning
the input after logging a warning. -/
def decode_unicode_text (esc : String → Option String) (text : String) : String :=
  if hasBackslashU text.toList then
    match esc text with
    | some r => r
    | none => text
  else text

/-- `output_message['content'][0]['text']` — defined only when the first
content block exists and is a text block; otherwise the subscript raises
and main's generic except branch fires. -/
def extract_text (m : Message) : Option String :=
  match m.content with
  | .text s :: _ => some s
  | _ => none

def turnErrorMsg : TurnError → String
  | .validation m => "Unexpected error: " ++ m
  | .transport m => "A client error occurred: " ++ m

structure SessionState where
  chat_history : List ChatTurn
deriving DecidableEq

/-- The observable outcome of processing one submitted prompt: the new
session state, any `st.warning` messages, and the `st.error` message when
the turn failed. -/
structure ProcessResult where
  state : SessionState
  warnings : List String
  errorShown : Option String
deriving DecidableEq

/-- The turn-processing block of `main` (src/app.py:379-408): run
`generate_message`; any exception shows an error and leaves the state
untouched; on success, extract the reply text, attempt TTS when enabled
(a failure only appends a warning), and append the user and assistant
turns to the history. -/
def process_turn (env : GenEnv)
    (client : ConverseCall → Except String BackendResponse)
    (tts : String → Except String (List Nat))
    (enable_tts : Bool)
    (prompt : String) (documents images : List UploadedFile)
    (st : SessionState) : ProcessResult :=
  let out := generate_message env client prompt documents images st.chat_history
  match out.result with
  | .error e => { state := st, warnings := [], errorShown := some (turnErrorMsg e) }
  | .ok msg =>
    match extract_text msg with
    | none => { state := st, warnings := [], errorShown := some "Unexpected error" }
    | some assistant_response =>
      let warnings :=
        if enable_tts then
          match tts assistant_response with
          | .ok _ => []
          | .error e => ["TTS failed: " ++ e]
        else []
      { state := { chat_history := st.chat_history ++
          [{ role := "user", text := prompt }, { role := "assistant", text := assistant_response }] }
        warnings := warnings
        errorShown := none }

/-- Filesystem events on the temporary WAV file of the voice-input path. -/
inductive FsEvent
  | createTemp
  | unlinkTemp
deriving DecidableEq

/-- The transcription block of `main` (src/app.py:350-365) as a trace of
filesystem events on the temp file.  `tempfile.NamedTemporaryFile` with
`delete=False` creates the file; `transcribe` models
`transcribe_audio(temp_path)` (`.error` = the call raising);
`os.unlink(temp_path)` runs only after a successful transcription, while
the except branch shows an error and returns without deleting. -/
def audio_transcription_step (esc : String → Option String)
    (transcribe : Except String String) : Option String × List FsEvent :=
  match transcribe with
  | .error _ => (none, [.createTemp])
  | .ok t => (some (decode_unicode_text esc t), [.createTemp, .unlinkTemp])

/-- The first `converse` call of `generate_message`: the projected history
plus the new user message, with the system prompt. -/
def firstCall (env : GenEnv) (hist : List ChatTurn) (blocks : List ContentBlock) :
    ConverseCall :=
  { messages := historyMessages hist ++ [{ role := "user", content := blocks }]
    system := some env.systemPrompt }

/-- The follow-up `converse` call after dispatching `tu`: the first call's
messages extended with the backend output and the tool-result message, and
no system prompt. -/
def followUpCall (env : GenEnv) (hist : List ChatTurn) (blocks : List ContentBlock)
    (r1 : BackendResponse) (tu : ToolUseBlock) : ConverseCall :=
  { messages := ((firstCall env hist blocks).messages ++ [r1.outputMessage]) ++
      [tool_result_message (dispatch_tool env.cfg env.agent tu)]
    system := none }

/-- Proof-side predicate: every whitespace character of the list is the
plain space `' '` (the shape `re.sub(r"\s+", " ", ...)` produces). -/
def spacesAreBlank (l : List Char) : Prop :=
  ∀ c ∈ l, pyIsSpace c = true → c = ' '

/-- Proof-side predicate: no two adjacent whitespace characters. -/
def noTwoSpaces : List Char → Bool
  | c1 :: c2 :: rest => (!(pyIsSpace c1 && pyIsSpace c2)) && noTwoSpaces (c2 :: rest)
  | _ => true

/-- Proof-side predicate: the list is empty or starts with a
non-whitespace character. -/
def headNotSpace : List Char → Prop
  | [] => True
  | c :: _ => pyIsSpace c = false

/-- C9: when the conversation history exceeds the cap of 50 turns, the
truncation step retains exactly the 50 most recent turns, as a suffix of
the original history (so the oldest turns are evicted and the oldest-first
order of the retained turns is preserved). -/
theorem truncate_chat_history_keeps_most_recent (h : List ChatTurn)
    (hlen : h.length > 50) :
    (truncate_chat_history h).length = 50 ∧ truncate_chat_history h <:+ h := by
  unfold truncate_chat_history
  rw [if_pos hlen]
  refine ⟨?_, List.drop_suffix _ _⟩
  rw [List.length_drop]
  omega

/-- Witness for `truncate_chat_history_keeps_most_recent` at a concrete
51-turn history. -/
theorem truncate_chat_history_keeps_most_recent_witness :
    (truncate_chat_history (List.replicate 51 ⟨"user", "x"⟩)).length = 50 ∧
      truncate_chat_history (List.replicate 51 ⟨"user", "x"⟩) <:+
        List.replicate 51 ⟨"user", "x"⟩ :=
  truncate_chat_history_keeps_most_recent _ (by simp)

/-- C10: `decode_unicode_text` is total (a function into `String`) and
conservative: an input with no backslash-`u` substring is returned
unchanged, and when the unicode-escape codec fails the input is also
returned unchanged. -/
theorem decode_unicode_text_conservative (esc : String → Option String) (t : String) :
    (hasBackslashU t.toList = false → decode_unicode_text esc t = t) ∧
    (esc t = none → decode_unicode_text esc t = t) := by
  constructor
  · intro h
    have h' : hasBackslashU t.data = false := h
    simp [decode_unicode_text, h']
  · intro h
    unfold decode_unicode_text
    cases hb : hasBackslashU t.toList <;> simp [h]

/-- Witness for `decode_unicode_text_conservative` with an always-failing
codec, on an escape-free input and on an input containing an escape. -/
theorem decode_unicode_text_conservative_witness :
    decode_unicode_text (fun _ => none) "hello" = "hello" ∧
    decode_unicode_text (fun _ => none) "a\\u0041" = "a\\u0041" :=
  ⟨(decode_unicode_text_conservative (fun _ => none) "hello").1 rfl,
   (decode_unicode_text_conservative (fun _ => none) "a\\u0041").2 rfl⟩

/-- C4: an empty or whitespace-only prompt makes `generate_message` fail
with the ValueError and no `converse` call is made. -/
theorem generate_message_empty_prompt (env : GenEnv)
    (client : ConverseCall → Except String BackendResponse)
    (documents images : List UploadedFile) (chat_history : List ChatTurn)
    (input_text : String) (h : promptEmpty input_text = true) :
    (generate_message env client input_text documents images chat_history).result =
      .error (.validation "Input text cannot be empty") ∧
    (generate_message env client input_text documents images chat_history).backendCalls
      = [] := by
  unfold generate_message
  rw [if_pos h]
  exact ⟨rfl, rfl⟩

/-- Witness for `generate_message_empty_prompt` on the whitespace-only
prompt consisting of a space and a tab. -/
theorem generate_message_empty_prompt_witness :
    (generate_message ⟨⟨none, none⟩, fun _ => .error "n/a", "sys"⟩ (fun _ => .error "down")
        " \t" [] [] []).result = .error (.validation "Input text cannot be empty") ∧
    (generate_message ⟨⟨none, none⟩, fun _ => .error "n/a", "sys"⟩ (fun _ => .error "down")
        " \t" [] [] []).backendCalls = [] :=
  generate_message_empty_prompt _ _ _ _ _ _ rfl

/-- C7: the size checks are boundary-inclusive: a document of exactly
4.5 MB (with an allowed format) is accepted and one of 4.5 MB + 1 byte is
rejected with a ValueError; an image of exactly 3.75 MB is accepted and
one of 3.75 MB + 1 byte is rejected. -/
theorem attachment_size_boundaries :
    (∀ doc : UploadedFile, docFormat doc.name ∈ allowedDocFormats →
      doc.size = docLimitBytes → (validate_document doc).isOk = true) ∧
    (∀ doc : UploadedFile, doc.size = docLimitBytes + 1 →
      (validate_document doc).isOk = false) ∧
    (∀ img : UploadedFile, img.size = imgLimitBytes →
      (validate_image img).isOk = true) ∧
    (∀ img : UploadedFile, img.size = imgLimitBytes + 1 →
      (validate_image img).isOk = false) := by
  refine ⟨fun doc hfmt hsz => ?_, fun doc hsz => ?_, fun img hsz => ?_, fun img hsz => ?_⟩
  · have hle : ¬ doc.size > docLimitBytes := by omega
    simp [validate_document, hle, hfmt, Except.isOk, Except.toBool]
  · have hgt : doc.size > docLimitBytes := by omega
    simp [validate_document, hgt, Except.isOk, Except.toBool]
  · have hle : ¬ img.size > imgLimitBytes := by omega
    simp [validate_image, hle, Except.isOk, Except.toBool]
  · have hgt : img.size > imgLimitBytes := by omega
    simp [validate_image, hgt, Except.isOk, Except.toBool]

/-- Witness for `attachment_size_boundaries` on concrete files at the two
boundary sizes for each kind. -/
theorem attachment_size_boundaries_witness :
    (validate_document ⟨"a.txt", 4718592, "", []⟩).isOk = true ∧
    (validate_document ⟨"a.txt", 4718593, "", []⟩).isOk = false ∧
    (validate_image ⟨"p.png", 3932160, "image/png", []⟩).isOk = true ∧
    (validate_image ⟨"p.png", 3932161, "image/png", []⟩).isOk = false :=
  ⟨attachment_size_boundaries.1 ⟨"a.txt", 4718592, "", []⟩ (by decide) rfl,
   attachment_size_boundaries.2.1 ⟨"a.txt", 4718593, "", []⟩ rfl,
   attachment_size_boundaries.2.2.1 ⟨"p.png", 3932160, "image/png", []⟩ rfl,
   attachment_size_boundaries.2.2.2 ⟨"p.png", 3932161, "image/png", []⟩ rfl⟩

/-- C2 counterexample: six documents, the sixth oversized and of a
disallowed format, yet content assembly succeeds — no ValueError is raised
for the count violation and only the first five documents are processed
(the result has six blocks: the text block plus five document blocks). -/
theorem attachment_count_overflow_not_rejected :
    (build_content_blocks "hi"
      [⟨"a.txt", 1, "", []⟩, ⟨"b.txt", 1, "", []⟩, ⟨"c.txt", 1, "", []⟩,
       ⟨"d.txt", 1, "", []⟩, ⟨"e.txt", 1, "", []⟩, ⟨"f.exe", 99999999, "", []⟩]
      []).isOk = true ∧
    ((build_content_blocks "hi"
      [⟨"a.txt", 1, "", []⟩, ⟨"b.txt", 1, "", []⟩, ⟨"c.txt", 1, "", []⟩,
       ⟨"d.txt", 1, "", []⟩, ⟨"e.txt", 1, "", []⟩, ⟨"f.exe", 99999999, "", []⟩]
      []).toOption.map List.length) = some 6 := by
  exact ⟨rfl, rfl⟩

/-- C2 amended: attachment lists beyond the count caps are silently
truncated — content assembly only ever looks at the first five documents
and the first twenty images, so the outcome on any input equals the
outcome on the truncated input. -/
theorem build_content_blocks_truncates (input_text : String)
    (documents images : List UploadedFile) :
    build_content_blocks input_text documents images =
      build_content_blocks input_text (documents.take 5) (images.take 20) := by
  simp [build_content_blocks, List.take_take]

/-- C6: on the voice-input path, when `transcribe_audio` raises, `main`'s
except branch returns without running `os.unlink`, so the temporary WAV
file created with `delete=False` is left on disk; only the success path
deletes it. -/
theorem audio_temp_file_leaked_on_transcription_failure :
    (∀ (esc : String → Option String) (e : String),
      (audio_transcription_step esc (.error e)).2 = [FsEvent.createTemp] ∧
      FsEvent.unlinkTemp ∉ (audio_transcription_step esc (.error e)).2) ∧
    (∀ (esc : String → Option String) (t : String),
      (audio_transcription_step esc (.ok t)).2 = [FsEvent.createTemp, FsEvent.unlinkTemp]) := by
  refine ⟨fun esc e => ⟨rfl, ?_⟩, fun esc t => rfl⟩
  simp [audio_transcription_step]

/-- C3 counterexample: a transport failure while invoking the knowledge
agent is caught inside `get_government_scheme_info` and returned as an
`{"error": ...}` dict, so the dispatcher builds a success-shaped tool
result whose `status` field is absent (`none`), not `status='error'`. -/
theorem transport_failure_tool_result_not_status_error :
    (dispatch_tool ⟨some "AGENT", some "ALIAS"⟩ (fun _ => .error "ConnectionError")
      ⟨"tu1", "government_scheme_info", some "msme schemes"⟩).status = none ∧
    (dispatch_tool ⟨some "AGENT", some "ALIAS"⟩ (fun _ => .error "ConnectionError")
      ⟨"tu1", "government_scheme_info", some "msme schemes"⟩).content =
      [.jsonResult (.error "Failed to retrieve information due to internal error.")] := by
  exact ⟨rfl, rfl⟩

/-- C3 amended: the dispatcher always returns a tool result carrying the
invocation's id and never throws; a transport/internal failure in the
agent call is absorbed as a human-readable error payload inside a tool
result whose `status` field is absent, while an exception escaping the
tool call (a missing `query` input) is converted to a tool result with
`status='error'`. -/
theorem dispatch_tool_absorbs_failures (cfg : SchemeConfig)
    (agent : String → Except String (List String)) (tu : ToolUseBlock) :
    (dispatch_tool cfg agent tu).toolUseId = tu.toolUseId ∧
    (tu.input = none → (dispatch_tool cfg agent tu).status = some "error") ∧
    (∀ q e, tu.input = some q → agent q = .error e →
      truthy cfg.agentId = true → truthy cfg.agentAliasId = true →
      (dispatch_tool cfg agent tu).status = none ∧
      (dispatch_tool cfg agent tu).content =
        [.jsonResult (.error "Failed to retrieve information due to internal error.")]) := by
  refine ⟨?_, fun hnone => ?_, fun q e hq hagent hid halias => ?_⟩
  · cases h : tu.input <;> simp [dispatch_tool, h]
  · simp [dispatch_tool, hnone]
  · simp [dispatch_tool, hq, get_government_scheme_info, hid, halias, hagent]

/-- Witness for `dispatch_tool_absorbs_failures`: a missing query becomes
`status='error'`, a failing agent call becomes an embedded error payload. -/
theorem dispatch_tool_absorbs_failures_witness :
    (dispatch_tool ⟨some "A", some "B"⟩ (fun _ => .error "boom")
      ⟨"id1", "government_scheme_info", none⟩).status = some "error" ∧
    (dispatch_tool ⟨some "A", some "B"⟩ (fun _ => .error "boom")
      ⟨"id2", "government_scheme_info", some "q"⟩).status = none :=
  ⟨(dispatch_tool_absorbs_failures ⟨some "A", some "B"⟩ (fun _ => .error "boom")
      ⟨"id1", "government_scheme_info", none⟩).2.1 rfl,
   ((dispatch_tool_absorbs_failures ⟨some "A", some "B"⟩ (fun _ => .error "boom")
      ⟨"id2", "government_scheme_info", some "q"⟩).2.2 "q" "boom" rfl rfl rfl rfl).1⟩

/-- C5: the chat history is extended with the new user turn and the final
assistant turn exactly when the turn completes successfully; a failure in
validation, the backend calls or reply extraction leaves the session state
unchanged; and a TTS failure during reply playback still ends with the
history updated, recording only a warning. -/
theorem process_turn_history_semantics (env : GenEnv)
    (client : ConverseCall → Except String BackendResponse)
    (tts : String → Except String (List Nat)) (enable_tts : Bool)
    (prompt : String) (documents images : List UploadedFile) (st : SessionState) :
    (∀ e, (generate_message env client prompt documents images st.chat_history).result
        = .error e →
      (process_turn env client tts enable_tts prompt documents images st).state = st) ∧
    (∀ msg, (generate_message env client prompt documents images st.chat_history).result
        = .ok msg → extract_text msg = none →
      (process_turn env client tts enable_tts prompt documents images st).state = st) ∧
    (∀ msg resp,
      (generate_message env client prompt documents images st.chat_history).result
        = .ok msg → extract_text msg = some resp →
      (process_turn env client tts enable_tts prompt documents images st).state.chat_history
        = st.chat_history ++ [⟨"user", prompt⟩, ⟨"assistant", resp⟩]) ∧
    (∀ msg resp e,
      (generate_message env client prompt documents images st.chat_history).result
        = .ok msg → extract_text msg = some resp → tts resp = .error e →
      (process_turn env client tts true prompt documents images st).state.chat_history
        = st.chat_history ++ [⟨"user", prompt⟩, ⟨"assistant", resp⟩] ∧
      ("TTS failed: " ++ e) ∈
        (process_turn env client tts true prompt documents images st).warnings) := by
  refine ⟨fun e he => ?_, fun msg hok hnone => ?_, fun msg resp hok hsome => ?_,
    fun msg resp e hok hsome htts => ?_⟩
  · simp [process_turn, he]
  · simp [process_turn, hok, hnone]
  · cases enable_tts <;> simp [process_turn, hok, hsome]
  · refine ⟨?_, ?_⟩ <;> simp [process_turn, hok, hsome, htts]

/-- Witness for `process_turn_history_semantics`: a failed backend call
leaves the state unchanged; a successful turn with a failing TTS call
still appends both turns and records the warning. -/
theorem process_turn_history_semantics_witness :
    (process_turn ⟨⟨none, none⟩, fun _ => .error "x", "sys"⟩ (fun _ => .error "down")
      (fun _ => .ok []) false "hi" [] [] ⟨[⟨"user", "old"⟩]⟩).state
      = ⟨[⟨"user", "old"⟩]⟩ ∧
    (process_turn ⟨⟨none, none⟩, fun _ => .error "x", "sys"⟩
      (fun _ => .ok ⟨⟨"assistant", [.text "fine"]⟩, "end_turn"⟩)
      (fun _ => .error "boom") true "hi" [] [] ⟨[⟨"user", "old"⟩]⟩).state.chat_history
      = [⟨"user", "old"⟩] ++ [⟨"user", "hi"⟩, ⟨"assistant", "fine"⟩] ∧
    ("TTS failed: " ++ "boom") ∈
      (process_turn ⟨⟨none, none⟩, fun _ => .error "x", "sys"⟩
        (fun _ => .ok ⟨⟨"assistant", [.text "fine"]⟩, "end_turn"⟩)
        (fun _ => .error "boom") true "hi" [] [] ⟨[⟨"user", "old"⟩]⟩).warnings :=
  ⟨(process_turn_history_semantics ⟨⟨none, none⟩, fun _ => .error "x", "sys"⟩
      (fun _ => .error "down") (fun _ => .ok []) false "hi" [] [] ⟨[⟨"user", "old"⟩]⟩).1
      (.transport "down") rfl,
   ((process_turn_history_semantics ⟨⟨none, none⟩, fun _ => .error "x", "sys"⟩
      (fun _ => .ok ⟨⟨"assistant", [.text "fine"]⟩, "end_turn"⟩)
      (fun _ => .error "boom") true "hi" [] [] ⟨[⟨"user", "old"⟩]⟩).2.2.2
      ⟨"assistant", [.text "fine"]⟩ "fine" "boom" rfl rfl rfl).1,
   ((process_turn_history_semantics ⟨⟨none, none⟩, fun _ => .error "x", "sys"⟩
      (fun _ => .ok ⟨⟨"assistant", [.text "fine"]⟩, "end_turn"⟩)
      (fun _ => .error "boom") true "hi" [] [] ⟨[⟨"user", "old"⟩]⟩).2.2.2
      ⟨"assistant", [.text "fine"]⟩ "fine" "boom" rfl rfl rfl).2⟩

/-- C1 counterexample: a first response with stop reason `tool_use` whose
content carries two distinct known-name `toolUse` entries leads to exactly
one dispatcher invocation (the first entry), not one per entry — the
`return` inside the tool-request loop cuts the iteration short. -/
theorem two_tool_uses_dispatch_once :
    countKnownToolUses
      [ContentBlock.toolUse ⟨"t1", "government_scheme_info", some "q1"⟩,
       ContentBlock.toolUse ⟨"t2", "government_scheme_info", some "q2"⟩] = 2 ∧
    (generate_message ⟨⟨some "A", some "B"⟩, fun _ => .ok ["info"], "sys"⟩
      (fun c => if c.system.isSome then
          .ok ⟨⟨"assistant",
            [.toolUse ⟨"t1", "government_scheme_info", some "q1"⟩,
             .toolUse ⟨"t2", "government_scheme_info", some "q2"⟩]⟩, "tool_use"⟩
        else .ok ⟨⟨"assistant", [.text "done"]⟩, "end_turn"⟩)
      "msme?" [] [] []).dispatched = [⟨"t1", "government_scheme_info", some "q1"⟩] := by
  exact ⟨rfl, rfl⟩

/-- C1 amended: on a first response with stop reason `tool_use`, the
orchestrator dispatches only the first known-name `toolUse` entry, if one
exists, then performs exactly one follow-up `converse` call (without the
system prompt) and returns its output message regardless of its stop
reason; with no known-name entry there is no dispatch and no follow-up
call, and the first output message is returned. -/
theorem generate_message_single_tool_roundtrip (env : GenEnv)
    (client : ConverseCall → Except String BackendResponse)
    (input : String) (docs imgs : List UploadedFile) (hist : List ChatTurn)
    (blocks : List ContentBlock) (r1 : BackendResponse)
    (hne : promptEmpty input = false)
    (hblocks : build_content_blocks input docs imgs = .ok blocks)
    (hr1 : client (firstCall env hist blocks) = .ok r1)
    (hstop : r1.stopReason = "tool_use") :
    (firstKnownToolUse r1.outputMessage.content = none →
      (generate_message env client input docs imgs hist).dispatched = [] ∧
      (generate_message env client input docs imgs hist).backendCalls =
        [firstCall env hist blocks] ∧
      (generate_message env client input docs imgs hist).result = .ok r1.outputMessage) ∧
    (∀ tu, firstKnownToolUse r1.outputMessage.content = some tu →
      (generate_message env client input docs imgs hist).dispatched = [tu] ∧
      (generate_message env client input docs imgs hist).backendCalls =
        [firstCall env hist blocks, followUpCall env hist blocks r1 tu] ∧
      (∀ r2, client (followUpCall env hist blocks r1 tu) = .ok r2 →
        (generate_message env client input docs imgs hist).result
          = .ok r2.outputMessage)) := by
  unfold firstCall at hr1
  constructor
  · intro hnone
    simp only [generate_message, hne, Bool.false_eq_true, if_false, hblocks, hr1, hstop,
      if_pos, firstCall, hnone]
    refine ⟨?_, ?_, ?_⟩ <;> trivial
  · intro tu htu
    simp only [generate_message, hne, Bool.false_eq_true, if_false, hblocks, hr1, hstop,
      if_pos, firstCall, followUpCall, tool_result_message, htu]
    split
    case _ e hc2 =>
      refine ⟨rfl, rfl, fun r2 hr2 => ?_⟩
      rw [hc2] at hr2
      exact Except.noConfusion hr2
    case _ r2 hc2 =>
      refine ⟨rfl, rfl, fun r2' hr2' => ?_⟩
      rw [hc2] at hr2'
      injection hr2' with h
      rw [h]

/-- Witness for `generate_message_single_tool_roundtrip`: one known-name
`toolUse` entry is dispatched and the second response is returned. -/
theorem generate_message_single_tool_roundtrip_witness :
    (generate_message ⟨⟨some "A", some "B"⟩, fun _ => .ok ["info"], "sys"⟩
      (fun c => if c.system.isSome then
          .ok ⟨⟨"assistant", [.toolUse ⟨"t1", "government_scheme_info", some "q1"⟩]⟩,
            "tool_use"⟩
        else .ok ⟨⟨"assistant", [.text "done"]⟩, "end_turn"⟩)
      "msme?" [] [] []).dispatched = [⟨"t1", "government_scheme_info", some "q1"⟩] ∧
    (generate_message ⟨⟨some "A", some "B"⟩, fun _ => .ok ["info"], "sys"⟩
      (fun c => if c.system.isSome then
          .ok ⟨⟨"assistant", [.toolUse ⟨"t1", "government_scheme_info", some "q1"⟩]⟩,
            "tool_use"⟩
        else .ok ⟨⟨"assistant", [.text "done"]⟩, "end_turn"⟩)
      "msme?" [] [] []).result = .ok ⟨"assistant", [.text "done"]⟩ :=
  ⟨((generate_message_single_tool_roundtrip ⟨⟨some "A", some "B"⟩, fun _ => .ok ["info"], "sys"⟩
      (fun c => if c.system.isSome then
          .ok ⟨⟨"assistant", [.toolUse ⟨"t1", "government_scheme_info", some "q1"⟩]⟩,
            "tool_use"⟩
        else .ok ⟨⟨"assistant", [.text "done"]⟩, "end_turn"⟩)
      "msme?" [] [] [] [ContentBlock.text "msme?"]
      ⟨⟨"assistant", [.toolUse ⟨"t1", "government_scheme_info", some "q1"⟩]⟩, "tool_use"⟩
      rfl rfl rfl rfl).2 ⟨"t1", "government_scheme_info", some "q1"⟩ rfl).1,
   ((generate_message_single_tool_roundtrip ⟨⟨some "A", some "B"⟩, fun _ => .ok ["info"], "sys"⟩
      (fun c => if c.system.isSome then
          .ok ⟨⟨"assistant", [.toolUse ⟨"t1", "government_scheme_info", some "q1"⟩]⟩,
            "tool_use"⟩
        else .ok ⟨⟨"assistant", [.text "done"]⟩, "end_turn"⟩)
      "msme?" [] [] [] [ContentBlock.text "msme?"]
      ⟨⟨"assistant", [.toolUse ⟨"t1", "government_scheme_info", some "q1"⟩]⟩, "tool_use"⟩
      rfl rfl rfl rfl).2 ⟨"t1", "government_scheme_info", some "q1"⟩ rfl).2.2
      ⟨⟨"assistant", [.text "done"]⟩, "end_turn"⟩ rfl⟩

/-- The character substitution is pointwise idempotent: the replacement
character `'_'` is itself outside the allowed class and maps to `'_'`. -/
theorem replaceChar_idem (c : Char) :
    (if allowedChar (if allowedChar c then c else '_') then
      (if allowedChar c then c else '_') else '_') =
      (if allowedChar c then c else '_') := by
  by_cases h : allowedChar c = true <;> simp [h]

theorem replaceBad_idem (s : List Char) : replaceBad (replaceBad s) = replaceBad s := by
  unfold replaceBad
  rw [List.map_map]
  exact List.map_congr_left (fun a _ => replaceChar_idem a)

theorem mem_replaceBad {c : Char} {s : List Char} (h : c ∈ replaceBad s) :
    allowedChar c = true ∨ c = '_' := by
  unfold replaceBad at h
  rw [List.mem_map] at h
  obtain ⟨a, _, ha⟩ := h
  by_cases hal : allowedChar a = true
  · rw [if_pos hal] at ha
    left
    rw [← ha]
    exact hal
  · rw [if_neg hal] at ha
    right
    exact ha.symm

theorem replaceBad_fixed {s : List Char} (h : ∀ c ∈ s, allowedChar c = true ∨ c = '_') :
    replaceBad s = s := by
  induction s with
  | nil => rfl
  | cons c cs ih =>
    have hc := h c (List.mem_cons_self c cs)
    have ih' := ih (fun d hd => h d (List.mem_cons_of_mem c hd))
    show (if allowedChar c then c else '_') :: replaceBad cs = c :: cs
    rcases hc with hc | hc
    · rw [if_pos hc, ih']
    · subst hc
      rw [ih']
      simp

theorem mem_collapseAux {c : Char} : ∀ (b : Bool) (s : List Char),
    c ∈ collapseAux b s → c = ' ' ∨ c ∈ s := by
  intro b s
  induction s generalizing b with
  | nil => intro h; cases h
  | cons d ds ih =>
    intro h
    unfold collapseAux at h
    by_cases hd : pyIsSpace d = true
    · rw [if_pos hd] at h
      cases b with
      | true =>
        have h' : c ∈ collapseAux true ds := h
        rcases ih true h' with h'' | h''
        · exact Or.inl h''
        · exact Or.inr (List.mem_cons_of_mem d h'')
      | false =>
        have h0 : c ∈ ' ' :: collapseAux true ds := h
        rcases List.mem_cons.mp h0 with h' | h'
        · exact Or.inl h'
        · rcases ih true h' with h'' | h''
          · exact Or.inl h''
          · exact Or.inr (List.mem_cons_of_mem d h'')
    · rw [if_neg hd] at h
      rcases List.mem_cons.mp h with h' | h'
      · subst h'
        exact Or.inr (List.mem_cons_self _ _)
      · rcases ih false h' with h'' | h''
        · exact Or.inl h''
        · exact Or.inr (List.mem_cons_of_mem d h'')

theorem collapseAux_spaces {c : Char} : ∀ (b : Bool) (s : List Char),
    c ∈ collapseAux b s → pyIsSpace c = true → c = ' ' := by
  intro b s
  induction s generalizing b with
  | nil => intro h; cases h
  | cons d ds ih =>
    intro h hsp
    unfold collapseAux at h
    by_cases hd : pyIsSpace d = true
    · rw [if_pos hd] at h
      cases b with
      | true =>
        have h' : c ∈ collapseAux true ds := h
        exact ih true h' hsp
      | false =>
        have h0 : c ∈ ' ' :: collapseAux true ds := h
        rcases List.mem_cons.mp h0 with h' | h'
        · exact h'
        · exact ih true h' hsp
    · rw [if_neg hd] at h
      rcases List.mem_cons.mp h with h' | h'
      · subst h'
        rw [hsp] at hd
        exact absurd rfl hd
      · exact ih false h' hsp

theorem collapseAux_true_headNotSpace : ∀ s : List Char, headNotSpace (collapseAux true s) := by
  intro s
  induction s with
  | nil => trivial
  | cons d ds ih =>
    unfold collapseAux
    by_cases hd : pyIsSpace d = true
    · rw [if_pos hd]
      exact ih
    · rw [if_neg hd]
      simp only [Bool.not_eq_true] at hd
      exact hd

theorem noTwoSpaces_cons {c : Char} {l : List Char} (hc : pyIsSpace c = false)
    (hl : noTwoSpaces l = true) : noTwoSpaces (c :: l) = true := by
  cases l with
  | nil => rfl
  | cons d ds => simp [noTwoSpaces, hc, hl]

theorem noTwoSpaces_cons_headNotSpace (c : Char) {l : List Char} (hl : headNotSpace l)
    (h2 : noTwoSpaces l = true) : noTwoSpaces (c :: l) = true := by
  cases l with
  | nil => rfl
  | cons d ds =>
    have hd : pyIsSpace d = false := hl
    simp [noTwoSpaces, hd, h2]

theorem collapseAux_noTwoSpaces : ∀ (s : List Char) (b : Bool),
    noTwoSpaces (collapseAux b s) = true := by
  intro s
  induction s with
  | nil => intro b; rfl
  | cons d ds ih =>
    intro b
    unfold collapseAux
    by_cases hd : pyIsSpace d = true
    · rw [if_pos hd]
      cases b with
      | true => exact ih true
      | false =>
        exact noTwoSpaces_cons_headNotSpace ' ' (collapseAux_true_headNotSpace ds) (ih true)
    · rw [if_neg hd]
      simp only [Bool.not_eq_true] at hd
      exact noTwoSpaces_cons hd (ih false)

theorem noTwoSpaces_tail {c : Char} {l : List Char} (h : noTwoSpaces (c :: l) = true) :
    noTwoSpaces l = true := by
  cases l with
  | nil => rfl
  | cons d ds =>
    have h' : ((!(pyIsSpace c && pyIsSpace d)) && noTwoSpaces (d :: ds)) = true := h
    rw [Bool.and_eq_true] at h'
    exact h'.2

theorem collapseAux_true_eq_false {s : List Char} (h : headNotSpace s) :
    collapseAux true s = collapseAux false s := by
  cases s with
  | nil => rfl
  | cons c cs =>
    have hc : pyIsSpace c = false := h
    simp [collapseAux, hc]

theorem collapseAux_false_fixed : ∀ s : List Char, spacesAreBlank s → noTwoSpaces s = true →
    collapseAux false s = s := by
  intro s
  induction s with
  | nil => intro _ _; rfl
  | cons c cs ih =>
    intro hsp h2
    have ihcs := ih (fun d hd hsd => hsp d (List.mem_cons_of_mem c hd) hsd) (noTwoSpaces_tail h2)
    unfold collapseAux
    by_cases hc : pyIsSpace c = true
    · rw [if_pos hc]
      have hcb : c = ' ' := hsp c (List.mem_cons_self _ _) hc
      subst hcb
      have hhead : headNotSpace cs := by
        cases cs with
        | nil => trivial
        | cons d ds =>
          have h2a : ((!(pyIsSpace ' ' && pyIsSpace d)) && noTwoSpaces (d :: ds)) = true := h2
          rw [Bool.and_eq_true] at h2a
          have h2' := h2a.1
          have hsp' : pyIsSpace ' ' = true := by decide
          rw [hsp'] at h2'
          simpa using h2'
      rw [collapseAux_true_eq_false hhead, ihcs]
      rfl
    · rw [if_neg hc, ihcs]

theorem dropTrailingSpaces_prefix : ∀ s : List Char, ∃ r, dropTrailingSpaces s ++ r = s := by
  intro s
  induction s with
  | nil => exact ⟨[], rfl⟩
  | cons c cs ih =>
    obtain ⟨r, hr⟩ := ih
    simp only [dropTrailingSpaces]
    by_cases hb : ((dropTrailingSpaces cs).isEmpty && pyIsSpace c) = true
    · rw [if_pos hb]
      exact ⟨c :: cs, rfl⟩
    · rw [if_neg hb]
      exact ⟨r, by rw [List.cons_append, hr]⟩

theorem mem_dropTrailingSpaces {c : Char} {s : List Char} (h : c ∈ dropTrailingSpaces s) :
    c ∈ s := by
  obtain ⟨r, hr⟩ := dropTrailingSpaces_prefix s
  rw [← hr]
  exact List.mem_append.mpr (Or.inl h)

theorem dropTrailingSpaces_headNotSpace {s : List Char} (h : headNotSpace s) :
    headNotSpace (dropTrailingSpaces s) := by
  cases s with
  | nil => trivial
  | cons c cs =>
    have hc : pyIsSpace c = false := h
    show headNotSpace (dropTrailingSpaces (c :: cs))
    simp only [dropTrailingSpaces]
    by_cases hb : ((dropTrailingSpaces cs).isEmpty && pyIsSpace c) = true
    · rw [if_pos hb]
      trivial
    · rw [if_neg hb]
      exact hc

theorem dropTrailingSpaces_idem : ∀ s : List Char,
    dropTrailingSpaces (dropTrailingSpaces s) = dropTrailingSpaces s := by
  intro s
  induction s with
  | nil => rfl
  | cons c cs ih =>
    simp only [dropTrailingSpaces]
    by_cases hb : ((dropTrailingSpaces cs).isEmpty && pyIsSpace c) = true
    · rw [if_pos hb]
      rfl
    · rw [if_neg hb]
      show dropTrailingSpaces (c :: dropTrailingSpaces cs) = c :: dropTrailingSpaces cs
      simp only [dropTrailingSpaces, ih]
      rw [if_neg hb]

theorem dropWhile_headNotSpace : ∀ s : List Char, headNotSpace (s.dropWhile pyIsSpace) := by
  intro s
  induction s with
  | nil => trivial
  | cons c cs ih =>
    by_cases hc : pyIsSpace c = true
    · rw [List.dropWhile_cons_of_pos hc]
      exact ih
    · rw [List.dropWhile_cons_of_neg hc]
      simp only [Bool.not_eq_true] at hc
      exact hc

theorem dropWhile_fixed_of_headNotSpace {s : List Char} (h : headNotSpace s) :
    s.dropWhile pyIsSpace = s := by
  cases s with
  | nil => rfl
  | cons c cs =>
    have hc : pyIsSpace c = false := h
    rw [List.dropWhile_cons]
    simp [hc]

theorem mem_dropWhileSpaces {c : Char} : ∀ {s : List Char}, c ∈ s.dropWhile pyIsSpace → c ∈ s := by
  intro s
  induction s with
  | nil => intro h; exact h
  | cons d ds ih =>
    intro h
    rw [List.dropWhile_cons] at h
    by_cases hd : pyIsSpace d = true
    · rw [if_pos hd] at h
      exact List.mem_cons_of_mem d (ih h)
    · rw [if_neg hd] at h
      exact h

theorem pyStrip_idem (s : List Char) : pyStrip (pyStrip s) = pyStrip s := by
  unfold pyStrip
  rw [dropWhile_fixed_of_headNotSpace (dropTrailingSpaces_headNotSpace (dropWhile_headNotSpace s)),
    dropTrailingSpaces_idem]

theorem mem_pyStrip {c : Char} {s : List Char} (h : c ∈ pyStrip s) : c ∈ s :=
  mem_dropWhileSpaces (mem_dropTrailingSpaces h)

theorem noTwoSpaces_append_left : ∀ (l₁ l₂ : List Char),
    noTwoSpaces (l₁ ++ l₂) = true → noTwoSpaces l₁ = true := by
  intro l₁
  induction l₁ with
  | nil => intro _ _; rfl
  | cons c cs ih =>
    intro l₂ h
    cases cs with
    | nil => rfl
    | cons d ds =>
      have h' : ((!(pyIsSpace c && pyIsSpace d)) && noTwoSpaces ((d :: ds) ++ l₂)) = true := h
      rw [Bool.and_eq_true] at h'
      show ((!(pyIsSpace c && pyIsSpace d)) && noTwoSpaces (d :: ds)) = true
      rw [Bool.and_eq_true]
      exact ⟨h'.1, ih l₂ h'.2⟩

theorem noTwoSpaces_append_right : ∀ (l₁ l₂ : List Char),
    noTwoSpaces (l₁ ++ l₂) = true → noTwoSpaces l₂ = true := by
  intro l₁
  induction l₁ with
  | nil => intro l₂ h; exact h
  | cons c cs ih =>
    intro l₂ h
    exact ih l₂ (noTwoSpaces_tail h)

theorem noTwoSpaces_dropWhileSpaces {s : List Char} (h : noTwoSpaces s = true) :
    noTwoSpaces (s.dropWhile pyIsSpace) = true := by
  apply noTwoSpaces_append_right (s.takeWhile pyIsSpace)
  rw [List.takeWhile_append_dropWhile]
  exact h

theorem noTwoSpaces_dropTrailing {s : List Char} (h : noTwoSpaces s = true) :
    noTwoSpaces (dropTrailingSpaces s) = true := by
  obtain ⟨r, hr⟩ := dropTrailingSpaces_prefix s
  apply noTwoSpaces_append_left _ r
  rw [hr]
  exact h

theorem noTwoSpaces_pyStrip {s : List Char} (h : noTwoSpaces s = true) :
    noTwoSpaces (pyStrip s) = true :=
  noTwoSpaces_dropTrailing (noTwoSpaces_dropWhileSpaces h)

theorem stripExtAux_eq_none {s : List Char} (h : '.' ∉ s) : stripExtAux s = none := by
  induction s with
  | nil => rfl
  | cons c cs ih =>
    have hc : ¬ c = '.' := fun hc => h (hc ▸ List.mem_cons_self c cs)
    have hcs : '.' ∉ cs := fun hm => h (List.mem_cons_of_mem c hm)
    unfold stripExtAux
    rw [ih hcs]
    simp [hc]

theorem stripExt_fixed {s : List Char} (h : '.' ∉ s) : stripExt s = s := by
  unfold stripExt
  rw [stripExtAux_eq_none h]
  rfl

theorem sanitizeList_chars {s : List Char} {c : Char} (h : c ∈ sanitizeList s) :
    allowedChar c = true ∨ c = '_' := by
  unfold sanitizeList at h
  have h1 := mem_pyStrip h
  have h2 : c ∈ collapseAux false (replaceBad (stripExt s)) := h1
  rcases mem_collapseAux false _ h2 with h3 | h3
  · subst h3
    left
    decide
  · exact mem_replaceBad h3

theorem sanitizeList_spaces (s : List Char) : spacesAreBlank (sanitizeList s) := by
  intro c hc hsp
  unfold sanitizeList at hc
  have h1 := mem_pyStrip hc
  exact collapseAux_spaces false _ h1 hsp

theorem sanitizeList_noTwoSpaces (s : List Char) : noTwoSpaces (sanitizeList s) = true :=
  noTwoSpaces_pyStrip (collapseAux_noTwoSpaces _ false)

theorem sanitizeList_no_dot (s : List Char) : '.' ∉ sanitizeList s := by
  intro h
  rcases sanitizeList_chars h with h' | h'
  · exact absurd h' (by decide)
  · exact absurd h' (by decide)

theorem sanitizeList_idem (s : List Char) : sanitizeList (sanitizeList s) = sanitizeList s := by
  show pyStrip (collapseWS (replaceBad (stripExt (sanitizeList s)))) = sanitizeList s
  rw [stripExt_fixed (sanitizeList_no_dot s),
    replaceBad_fixed (fun c hc => sanitizeList_chars hc)]
  show pyStrip (collapseAux false (sanitizeList s)) = sanitizeList s
  rw [collapseAux_false_fixed _ (sanitizeList_spaces s) (sanitizeList_noTwoSpaces s)]
  show pyStrip (pyStrip (collapseWS (replaceBad (stripExt s)))) = sanitizeList s
  rw [pyStrip_idem]
  rfl

/-- C8: `sanitize_filename` is idempotent: sanitizing an already-sanitized
name returns it unchanged, for every input string. -/
theorem sanitize_filename_idempotent (x : String) :
    sanitize_filename (sanitize_filename x) = sanitize_filename x := by
  unfold sanitize_filename
  have h : ((sanitizeList x.toList).asString).toList = sanitizeList x.toList := rfl
  rw [h, sanitizeList_idem]

end App
